import Mathlib

/-!
Verification of the Cognition Streaming & Deduplication Engine of the plexo
repository: a shallow embedding of `crates/plexo-sdk/src/cognition/suggestions.rs`,
`crates/plexo-sdk/src/cognition/v2/chat.rs` and
`crates/plexo-core/src/api/graphql/processors/ai.rs`, together with theorems
about message adaptation, streaming chunk assembly, tool-call reconstruction,
fingerprinting and the GraphQL drain/error behaviour.
-/

namespace Plexo

/-- Uuid values are represented by their canonical hyphenated string rendering,
which is also how `serde` serializes them inside a `Task`. -/
abbrev Uuid := String

/-- Modelled from the spec: the task status enumeration lives in
`resources/tasks/task.rs`, which is not under src/; the spec only requires a
status field with named variants, serialized by variant name. -/
inductive TaskStatus where
  | None
  | Backlog
  | ToDo
  | InProgress
  | Done
deriving DecidableEq, Repr

/-- Modelled from the spec: the task priority enumeration lives in
`resources/tasks/task.rs`, which is not under src/; the spec only requires a
priority field with named variants, serialized by variant name. -/
inductive TaskPriority where
  | None
  | Low
  | Medium
  | High
  | Urgent
deriving DecidableEq, Repr

/-- The serde/Display name of a task status variant. -/
def statusName : TaskStatus → String
  | .None => "None"
  | .Backlog => "Backlog"
  | .ToDo => "ToDo"
  | .InProgress => "InProgress"
  | .Done => "Done"

/-- The serde/Display name of a task priority variant. -/
def priorityName : TaskPriority → String
  | .None => "None"
  | .Low => "Low"
  | .Medium => "Medium"
  | .High => "High"
  | .Urgent => "Urgent"

/-- The canonical task entity (spec section 3; the struct itself is in
`resources/tasks/task.rs`, not under src/, but its full field list and order are
visible in `acquire_tasks_fingerprints`, suggestions.rs lines 106-120).
`DateTime` fields are represented by their RFC3339 string rendering, `Uuid`
fields by their hyphenated string rendering. -/
structure Task where
  id : Uuid
  created_at : String
  updated_at : String
  title : String
  description : Option String
  status : TaskStatus
  priority : TaskPriority
  due_date : Option String
  project_id : Uuid
  lead_id : Option Uuid
  owner_id : Uuid
  count : Int
  parent_id : Option Uuid
deriving DecidableEq, Repr

/-- A partially-specified task (spec section 3; the struct is in
`cognition/operations.rs`, not under src/, but every field and its optionality
is visible in `calculate_task_suggestion_fingerprint`, suggestions.rs lines
72-94: all five fields, the title included, are `Option`). `due_date` is
represented by its `to_rfc3339()` rendering. -/
structure TaskSuggestionInput where
  title : Option String
  description : Option String
  status : Option TaskStatus
  priority : Option TaskPriority
  due_date : Option String
deriving DecidableEq, Repr

/-- Embedding of `ChatResponseFunctionCall` (v2/chat.rs lines 41-46). -/
structure ChatResponseFunctionCall where
  name : Option String
  arguments : Option String
deriving DecidableEq, Repr

/-- Embedding of `ChatResponseToolCall` (v2/chat.rs lines 33-39); the Rust
field `r#type` is written `type` here. -/
structure ChatResponseToolCall where
  id : Option String
  type : Option String
  function : Option ChatResponseFunctionCall
deriving DecidableEq, Repr

/-- Embedding of `ChatResponseChunk` (v2/chat.rs lines 22-31). -/
structure ChatResponseChunk where
  delta : String
  message : String
  message_id : Option Uuid
  tool_calls : Option (List ChatResponseToolCall)
deriving DecidableEq, Repr

/-- Embedding of `calculate_task_suggestion_fingerprint` (suggestions.rs lines
72-94): the exact `format!` template of the source, with unset optional fields
rendered as the `<suggest>` placeholder.  Status and priority `to_string()`
renderings are the variant names (`Display` impls are in `task.rs`, not under
src/). -/
def calculate_task_suggestion_fingerprint (task_suggestion : TaskSuggestionInput) : String :=
  "Task Title: " ++ task_suggestion.title.getD "<suggest>" ++
  "\n        Task Description: " ++ task_suggestion.description.getD "<suggest>" ++
  "\n        Task Status: " ++ (task_suggestion.status.map statusName).getD "<suggest>" ++
  "\n        Task Priority: " ++ (task_suggestion.priority.map priorityName).getD "<suggest>" ++
  "\n        Task Due Date: " ++ task_suggestion.due_date.getD "<suggest>"

/-- One delta event of the provider stream, as consumed by `chat_response`
(suggestions.rs lines 170-179): the loop body inspects only
`choices.first().delta.content : Option<String>`, so a delta event is
represented by that field. -/
abbrev DeltaEvent := Option String

/-- Embedding of the stream body of `chat_response` (suggestions.rs lines
170-179): each delta whose content is present has that content yielded; the
first delta with no content breaks the loop, and nothing further is yielded
(the end-of-stream case of the while-let yields nothing as well). -/
def chat_response : List DeltaEvent → List String
  | [] => []
  | none :: _ => []
  | some c :: rest => c :: chat_response rest

/-- Modelled from the spec: `get_chat_response` (cognition/v2/operations.rs)
is not under src/.  Per spec sections 3, 4.3 and 5, the assembler folds the
yielded contents into `ChatResponseChunk`s: each chunk's `delta` is the new
text, its `message` is the prior cumulative message plus the new text, and
every chunk of the turn carries the turn's `message_id`; text chunks carry no
tool calls.  `acc` is the cumulative message produced so far. -/
def assembleChunks (mid : Option Uuid) (acc : String) : List String → List ChatResponseChunk
  | [] => []
  | c :: rest =>
    { delta := c, message := acc ++ c, message_id := mid, tool_calls := none } ::
      assembleChunks mid (acc ++ c) rest

/-- Modelled from the spec: the full chunk sequence of one turn — the
delta-content/termination behaviour of `chat_response` (suggestions.rs lines
170-179) followed by the spec's cumulative chunk assembly, starting from the
empty cumulative message. -/
def get_chat_response (mid : Option Uuid) (deltas : List DeltaEvent) : List ChatResponseChunk :=
  assembleChunks mid "" (chat_response deltas)

/-- Modelled from the spec: one tool-call delta fragment (spec section 4.3
step 5): an event supplies the tool-call index together with a partial `id`,
`type`, function `name`, or a fragment of `arguments`. -/
structure ToolCallDelta where
  index : Nat
  id : Option String := none
  type : Option String := none
  name : Option String := none
  arguments : Option String := none
deriving DecidableEq, Repr

/-- Option-level concatenation of string fragments: an absent fragment leaves
the accumulated text unchanged; a present fragment is appended to the
accumulated text, starting it when nothing was accumulated yet. -/
def appendFrag : Option String → Option String → Option String
  | acc, none => acc
  | none, some s => some s
  | some t, some s => some (t ++ s)

/-- Modelled from the spec: the per-index accumulator for tool-call
reconstruction (spec sections 4.3 step 5 and 9): partial `id`, `type`,
function `name` and `arguments`, concatenated in arrival order. -/
structure ToolCallAcc where
  id : Option String := none
  type : Option String := none
  name : Option String := none
  arguments : Option String := none
deriving DecidableEq, Repr

/-- Merge one arriving fragment into the accumulator of its index. -/
def mergeToolCallDelta (acc : ToolCallAcc) (d : ToolCallDelta) : ToolCallAcc :=
  { id := appendFrag acc.id d.id,
    type := appendFrag acc.type d.type,
    name := appendFrag acc.name d.name,
    arguments := appendFrag acc.arguments d.arguments }

/-- Apply one tool-call delta to the accumulator table keyed by tool-call
index: the entry of the delta's index is merged in place, and a first
fragment for an index appends a fresh entry. -/
def updateToolCalls (m : List (Nat × ToolCallAcc)) (d : ToolCallDelta) : List (Nat × ToolCallAcc) :=
  match m with
  | [] => [(d.index, mergeToolCallDelta {} d)]
  | (i, acc) :: rest =>
    if i = d.index then (i, mergeToolCallDelta acc d) :: rest
    else (i, acc) :: updateToolCalls rest d

/-- Modelled from the spec: fold the whole delta sequence into the per-index
accumulators, in arrival order (spec section 9: "an explicit accumulator
keyed by index"). -/
def accumulate_tool_calls (ds : List ToolCallDelta) : List (Nat × ToolCallAcc) :=
  ds.foldl updateToolCalls []

/-- Modelled from the spec: finalize one accumulator into the
`ChatResponseToolCall` shape of v2/chat.rs at stream end. -/
def finalizeToolCall (acc : ToolCallAcc) : ChatResponseToolCall :=
  { id := acc.id, type := acc.type,
    function := some { name := acc.name, arguments := acc.arguments } }

/-- Look up the accumulator of a tool-call index in the table. -/
def findAcc (i : Nat) : List (Nat × ToolCallAcc) → Option ToolCallAcc
  | [] => none
  | (j, acc) :: rest => if j = i then some acc else findAcc i rest

/-- The fragments of one tool-call index, in arrival order. -/
def fragmentsAt (i : Nat) (ds : List ToolCallDelta) : List ToolCallDelta :=
  ds.filter (fun d => d.index = i)

/-- Fold a fragment list into an optional accumulator: the first fragment of
an absent accumulator starts a fresh one. -/
def accAfter (a : Option ToolCallAcc) (fs : List ToolCallDelta) : Option ToolCallAcc :=
  fs.foldl (fun o f => some (mergeToolCallDelta (o.getD {}) f)) a

/-- Modelled from the spec: the SDK error type (`errors/sdk.rs` is not under
src/); only the `LLMStreamError` variant is named by the code under src/, the
remaining error surface is abstracted as a message. -/
inductive SDKError where
  | LLMStreamError
  | other (msg : String)
deriving DecidableEq, Repr

/-- The `to_string()` rendering of an SDK error, as passed to
`async_graphql::Error::new`. -/
def SDKError.toMessage : SDKError → String
  | .LLMStreamError => "LLMStreamError"
  | .other m => m

/-- The outcome of one GraphQL resolver call: a value, a structured GraphQL
error (`async_graphql::Error`), or a Rust panic — an `unwrap` on a failed
result, which aborts without producing a structured error. -/
inductive GqlOutcome (α : Type) where
  | ok (a : α)
  | err (msg : String)
  | panicked
deriving DecidableEq, Repr

/-- Modelled from the spec: the filled-in task suggestion returned by the
suggestion operations (`cognition/operations.rs`, not under src/). Its
internals play no role in the resolver claims. -/
structure TaskSuggestion where
  title : String
  description : String
  status : TaskStatus
  priority : TaskPriority
  due_date : String
deriving DecidableEq, Repr

/-- A chat entity (spec section 3): id, owner and optional title. -/
structure Chat where
  id : Uuid
  owner_id : Uuid
  title : Option String
deriving DecidableEq, Repr

/-- The chat-creation input; the resolver overwrites its `owner_id` with the
authenticated member id. -/
structure CreateChatInput where
  owner_id : Uuid
  title : Option String
deriving DecidableEq, Repr

/-- Embedding of `AIProcessorGraphQLQuery::suggest_next_task` (ai.rs lines
34-41): context extraction is propagated with `?` — a structured error — and
an engine failure is mapped through `async_graphql::Error::new(err.to_string())`.
The engine call `get_suggestions_v2` is not under src/ and enters as the
`engineResult` argument. -/
def suggest_next_task (ctxResult : Except String Unit)
    (engineResult : Except SDKError TaskSuggestion) : GqlOutcome TaskSuggestion :=
  match ctxResult with
  | .error e => .err e
  | .ok _ =>
    match engineResult with
    | .error e => .err e.toMessage
    | .ok v => .ok v

/-- Embedding of `AIProcessorGraphQLQuery::subdivide_task` (ai.rs lines
43-50), with the same error plumbing as `suggest_next_task`. -/
def subdivide_task (ctxResult : Except String Unit)
    (engineResult : Except SDKError (List TaskSuggestion)) : GqlOutcome (List TaskSuggestion) :=
  match ctxResult with
  | .error e => .err e
  | .ok _ =>
    match engineResult with
    | .error e => .err e.toMessage
    | .ok v => .ok v

/-- Embedding of `AIProcessorGraphQLMutation::create_chat` (ai.rs lines
68-78): context extraction is propagated with `?`, the input's `owner_id` is
overwritten with the authenticated member id, and an engine failure is mapped
to a structured error.  The storage call `create_chat` is not under src/ and
enters as the `engine` argument. -/
def create_chat (ctxResult : Except String Uuid) (input : CreateChatInput)
    (engine : CreateChatInput → Except SDKError Chat) : GqlOutcome Chat :=
  match ctxResult with
  | .error e => .err e
  | .ok member_id =>
    match engine { input with owner_id := member_id } with
    | .error e => .err e.toMessage
    | .ok v => .ok v

/-- Embedding of `AIProcessorGraphQLMutation::chat` (ai.rs lines 80-91):
context extraction and the provider call are `.unwrap()`ed — their failures
panic — the stream is drained keeping only the last chunk, and a drained
empty stream becomes the structured `SDKError::LLMStreamError`.  The chunk
stream of the turn enters as the finite sequence `streamResult` carries. -/
def AIProcessorGraphQLMutation.chat (ctxResult : Except String Unit)
    (streamResult : Except SDKError (List ChatResponseChunk)) : GqlOutcome ChatResponseChunk :=
  match ctxResult with
  | .error _ => .panicked
  | .ok _ =>
    match streamResult with
    | .error _ => .panicked
    | .ok chunks =>
      match chunks.foldl (fun _ c => some c) none with
      | some c => .ok c
      | none => .err SDKError.LLMStreamError.toMessage

/-- A JSON value, the shape of `serde_json::Value`; numbers are abstracted as
integers, which plays no role in the adapter. -/
inductive Json where
  | null
  | bool (b : Bool)
  | num (n : Int)
  | str (s : String)
  | arr (xs : List Json)
  | obj (fields : List (String × Json))

/-- Embedding of `async_openai`'s `ChatCompletionRequestMessage` as produced
by the adapter: a role-tagged turn carrying the full parsed payload
(`serde_json::from_value` is modelled as packaging the parsed value — the
provider library's own field validation is outside this repository). -/
inductive ChatCompletionRequestMessage where
  | User (payload : Json)
  | Assistant (payload : Json)

/-- How an adaptation aborts: `unwrap()` on a parse failure or a
missing/ill-typed role panics, and the `todo!()` arms for `tool`, `function`,
unknown roles and non-object payloads panic as unimplemented.  Both are loud
per-message failures, never a silently dropped or coerced message. -/
inductive AdaptFailure where
  | panicked
  | todoUnimplemented
deriving DecidableEq, Repr

/-- A stored domain message (spec section 3).  `content` is the outcome of
`serde_json::from_str` on the stored payload: `none` when the stored text is
not valid JSON, otherwise the parsed value. -/
structure Message where
  id : Uuid
  chat_id : Uuid
  content : Option Json

/-- First-match lookup of a field in a JSON object, as
`serde_json::Map::get` behaves on parsed objects. -/
def lookupField (fields : List (String × Json)) (k : String) : Option Json :=
  match fields with
  | [] => none
  | (k2, v) :: rest => if k2 = k then some v else lookupField rest k

/-- Embedding of `message_to_chat_completion` (suggestions.rs lines 182-194):
parse the content — `unwrap` panics when it is not JSON — then require an
object with a `role` field — `unwrap`s panic when it is missing or not a
string — and dispatch on the role: `user` and `assistant` wrap the full value
in the corresponding request-message variant; `tool`, `function`, any other
role, and non-object payloads hit `todo!()`. -/
def message_to_chat_completion (message : Message) : Except AdaptFailure ChatCompletionRequestMessage :=
  match message.content with
  | none => .error .panicked
  | some val =>
    match val with
    | .obj fields =>
      match lookupField fields "role" with
      | none => .error .panicked
      | some roleVal =>
        match roleVal with
        | .str r =>
          if r = "user" then .ok (.User (.obj fields))
          else if r = "assistant" then .ok (.Assistant (.obj fields))
          else .error .todoUnimplemented
        | _ => .error .panicked
    | _ => .error .todoUnimplemented

/-- The lowercase hex digit character of a value below 16, as emitted by
serde_json's control-character escapes. -/
def hexDigitChar (n : Nat) : Char :=
  if n < 10 then Char.ofNat (48 + n) else Char.ofNat (87 + n)

/-- The numeric value of a hex digit character, if it is one. -/
def hexCharVal (c : Char) : Option Nat :=
  if 48 ≤ c.toNat ∧ c.toNat ≤ 57 then some (c.toNat - 48)
  else if 97 ≤ c.toNat ∧ c.toNat ≤ 102 then some (c.toNat - 87)
  else if 65 ≤ c.toNat ∧ c.toNat ≤ 70 then some (c.toNat - 55)
  else none

/-- serde_json's escaping of one character inside a JSON string literal:
quote and backslash are escaped, backspace, tab, newline, form feed and
carriage return get their short escapes, every other control character below
0x20 is escaped as a \u00XX sequence, and all other characters (non-ASCII
included) are emitted raw. -/
def escChar (c : Char) : List Char :=
  if c = '"' then ['\\', '"']
  else if c = '\\' then ['\\', '\\']
  else if c.toNat = 8 then ['\\', 'b']
  else if c.toNat = 9 then ['\\', 't']
  else if c.toNat = 10 then ['\\', 'n']
  else if c.toNat = 12 then ['\\', 'f']
  else if c.toNat = 13 then ['\\', 'r']
  else if c.toNat < 32 then
    ['\\', 'u', '0', '0', hexDigitChar (c.toNat / 16), hexDigitChar (c.toNat % 16)]
  else [c]

/-- Escape a whole string body. -/
def escBody : List Char → List Char
  | [] => []
  | c :: s => escChar c ++ escBody s

/-- A JSON string literal: quote, escaped body, quote. -/
def jstr (s : String) : List Char :=
  '"' :: (escBody s.data ++ ['"'])

/-- Fuel-bounded core of `natDigits`: any fuel above the number suffices
(`natDigitsF_spec`). -/
def natDigitsF : Nat → Nat → List Char
  | 0, _ => []
  | f + 1, n =>
    if n < 10 then [Char.ofNat (48 + n)]
    else natDigitsF f (n / 10) ++ [Char.ofNat (48 + n % 10)]

/-- The decimal digit characters of a natural number, most significant
first. -/
def natDigits (n : Nat) : List Char :=
  natDigitsF (n + 1) n

/-- serde_json's decimal rendering of an integer (the i32 `count` field). -/
def intChars (i : Int) : List Char :=
  if i < 0 then '-' :: natDigits (-i).toNat else natDigits i.toNat

/-- serde_json's rendering of an `Option<String>` field: `null` or a string
literal. -/
def joptstr : Option String → List Char
  | none => ['n', 'u', 'l', 'l']
  | some s => jstr s

/-- Embedding of `calculate_task_fingerprint` (suggestions.rs lines 68-70):
`serde_json::to_string(&task)`, the derived serde serialization of `Task` —
one JSON object, every field present, in declaration order, strings escaped
as serde_json escapes them, enums rendered by variant name, the `count`
integer in decimal.  The struct's serde derive lives in `task.rs` (not under
src/); the field list and order are the spec's and the ones of the struct
literal in suggestions.rs lines 106-120. -/
def taskChars (t : Task) : List Char :=
  "\x7b\"id\":".data ++ jstr t.id ++
  ",\"created_at\":".data ++ jstr t.created_at ++
  ",\"updated_at\":".data ++ jstr t.updated_at ++
  ",\"title\":".data ++ jstr t.title ++
  ",\"description\":".data ++ joptstr t.description ++
  ",\"status\":".data ++ jstr (statusName t.status) ++
  ",\"priority\":".data ++ jstr (priorityName t.priority) ++
  ",\"due_date\":".data ++ joptstr t.due_date ++
  ",\"project_id\":".data ++ jstr t.project_id ++
  ",\"lead_id\":".data ++ joptstr t.lead_id ++
  ",\"owner_id\":".data ++ jstr t.owner_id ++
  ",\"count\":".data ++ intChars t.count ++
  ",\"parent_id\":".data ++ joptstr t.parent_id ++
  "\x7d".data

/-- The task fingerprint as a string. -/
def calculate_task_fingerprint (task : Task) : String :=
  ⟨taskChars task⟩

/-- Prepend a character to the decoded body of a string-decoder result. -/
def consRes (c : Char) : Option (List Char × List Char) → Option (List Char × List Char)
  | none => none
  | some (s, r) => some (c :: s, r)

/-- Decode the body of a JSON string literal, after its opening quote: the
unescaped body and the input remaining after the closing quote.  Left
inverse of `escBody` (`decStrAux_escBody`). -/
def decStrAux : List Char → Option (List Char × List Char)
  | [] => none
  | c :: rest =>
    if c = '"' then some ([], rest)
    else if c = '\\' then
      match rest with
      | [] => none
      | d :: rest2 =>
        if d = '"' then consRes '"' (decStrAux rest2)
        else if d = '\\' then consRes '\\' (decStrAux rest2)
        else if d = 'b' then consRes (Char.ofNat 8) (decStrAux rest2)
        else if d = 't' then consRes (Char.ofNat 9) (decStrAux rest2)
        else if d = 'n' then consRes (Char.ofNat 10) (decStrAux rest2)
        else if d = 'f' then consRes (Char.ofNat 12) (decStrAux rest2)
        else if d = 'r' then consRes (Char.ofNat 13) (decStrAux rest2)
        else if d = 'u' then
          match rest2 with
          | h1 :: h2 :: h3 :: h4 :: rest3 =>
            match hexCharVal h1, hexCharVal h2, hexCharVal h3, hexCharVal h4 with
            | some a, some b, some c2, some e =>
              consRes (Char.ofNat (((a * 16 + b) * 16 + c2) * 16 + e)) (decStrAux rest3)
            | _, _, _, _ => none
          | _ => none
        else none
    else consRes c (decStrAux rest)

/-- Decode a whole JSON string literal, opening quote included. -/
def decJStr (l : List Char) : Option (String × List Char) :=
  match l with
  | [] => none
  | c :: rest =>
    if c = '"' then (decStrAux rest).map (fun p => (⟨p.1⟩, p.2))
    else none

/-- Whether a character is a decimal digit. -/
def isDigitChar (c : Char) : Bool :=
  48 ≤ c.toNat && c.toNat ≤ 57

/-- Split off the longest leading run of decimal digits. -/
def takeDigits : List Char → List Char × List Char
  | [] => ([], [])
  | c :: rest =>
    if isDigitChar c then
      ((takeDigits rest).1.cons c, (takeDigits rest).2)
    else ([], c :: rest)

/-- The value of a run of decimal digits, most significant first. -/
def digitsVal (ds : List Char) : Nat :=
  ds.foldl (fun a c => a * 10 + (c.toNat - 48)) 0

/-- Decode a decimal natural number. -/
def decNat (l : List Char) : Option (Nat × List Char) :=
  if (takeDigits l).1 = [] then none
  else some (digitsVal (takeDigits l).1, (takeDigits l).2)

/-- Decode a decimal integer with an optional leading minus sign. -/
def decInt (l : List Char) : Option (Int × List Char) :=
  match l with
  | [] => none
  | c :: rest =>
    if c = '-' then (decNat rest).map (fun p => (-(p.1 : Int), p.2))
    else (decNat (c :: rest)).map (fun p => ((p.1 : Int), p.2))

/-- Strip an expected literal prefix. -/
def expectChars : List Char → List Char → Option (List Char)
  | [], l => some l
  | _ :: _, [] => none
  | c :: p, x :: l => if x = c then expectChars p l else none

/-- Decode a `null`-or-string-literal field. -/
def decOptStr (l : List Char) : Option (Option String × List Char) :=
  match expectChars "null".data l with
  | some r => some (none, r)
  | none => (decJStr l).map (fun p => (some p.1, p.2))

/-- The task status of a variant name. -/
def statusOfName (s : String) : Option TaskStatus :=
  if s = "None" then some .None
  else if s = "Backlog" then some .Backlog
  else if s = "ToDo" then some .ToDo
  else if s = "InProgress" then some .InProgress
  else if s = "Done" then some .Done
  else none

/-- The task priority of a variant name. -/
def priorityOfName (s : String) : Option TaskPriority :=
  if s = "None" then some .None
  else if s = "Low" then some .Low
  else if s = "Medium" then some .Medium
  else if s = "High" then some .High
  else if s = "Urgent" then some .Urgent
  else none

/-- Decode a quoted task status. -/
def decStatus (l : List Char) : Option (TaskStatus × List Char) :=
  (decJStr l).bind (fun p => (statusOfName p.1).map (fun s => (s, p.2)))

/-- Decode a quoted task priority. -/
def decPriority (l : List Char) : Option (TaskPriority × List Char) :=
  (decJStr l).bind (fun p => (priorityOfName p.1).map (fun s => (s, p.2)))

/-- First stage of `decodeTask` (the decoder is split in three to keep each
bind chain small): the opening brace and the four leading string fields.
`decodeTask` as a whole is a total left inverse of `taskChars`
(`decodeTask_taskChars`), which makes the fingerprint injective. -/
def decodeTaskA (l0 : List Char) : Option ((String × String × String × String) × List Char) :=
  (expectChars "\x7b\"id\":".data l0).bind fun l1 =>
  (decJStr l1).bind fun p1 =>
  (expectChars ",\"created_at\":".data p1.2).bind fun l2 =>
  (decJStr l2).bind fun p2 =>
  (expectChars ",\"updated_at\":".data p2.2).bind fun l3 =>
  (decJStr l3).bind fun p3 =>
  (expectChars ",\"title\":".data p3.2).bind fun l4 =>
  (decJStr l4).bind fun p4 =>
  some ((p1.1, p2.1, p3.1, p4.1), p4.2)

/-- Second stage of `decodeTask`: the description, status, priority and due
date fields. -/
def decodeTaskB (l0 : List Char) :
    Option ((Option String × TaskStatus × TaskPriority × Option String) × List Char) :=
  (expectChars ",\"description\":".data l0).bind fun l5 =>
  (decOptStr l5).bind fun p5 =>
  (expectChars ",\"status\":".data p5.2).bind fun l6 =>
  (decStatus l6).bind fun p6 =>
  (expectChars ",\"priority\":".data p6.2).bind fun l7 =>
  (decPriority l7).bind fun p7 =>
  (expectChars ",\"due_date\":".data p7.2).bind fun l8 =>
  (decOptStr l8).bind fun p8 =>
  some ((p5.1, p6.1, p7.1, p8.1), p8.2)

/-- Third stage of `decodeTask`: the id references, the count, and the
closing brace. -/
def decodeTaskC (l0 : List Char) :
    Option ((String × Option String × String × Int × Option String) × List Char) :=
  (expectChars ",\"project_id\":".data l0).bind fun l9 =>
  (decJStr l9).bind fun p9 =>
  (expectChars ",\"lead_id\":".data p9.2).bind fun l10 =>
  (decOptStr l10).bind fun p10 =>
  (expectChars ",\"owner_id\":".data p10.2).bind fun l11 =>
  (decJStr l11).bind fun p11 =>
  (expectChars ",\"count\":".data p11.2).bind fun l12 =>
  (decInt l12).bind fun p12 =>
  (expectChars ",\"parent_id\":".data p12.2).bind fun l13 =>
  (decOptStr l13).bind fun p13 =>
  (expectChars "\x7d".data p13.2).bind fun l14 =>
  some ((p9.1, p10.1, p11.1, p12.1, p13.1), l14)

/-- Assemble the three stages and require the input to be fully consumed. -/
def decodeTask (l0 : List Char) : Option Task :=
  (decodeTaskA l0).bind fun a =>
  (decodeTaskB a.2).bind fun b =>
  (decodeTaskC b.2).bind fun c =>
  if c.2 = [] then
    some ⟨a.1.1, a.1.2.1, a.1.2.2.1, a.1.2.2.2,
      b.1.1, b.1.2.1, b.1.2.2.1, b.1.2.2.2,
      c.1.1, c.1.2.1, c.1.2.2.1, c.1.2.2.2.1, c.1.2.2.2.2⟩
  else none

/-- Embedding of the filter built by `GetTasksInputBuilder`
(suggestions.rs lines 97-100), restricted to the retrieval-relevant fields of
spec section 6: a result-count limit and a project scope. -/
structure GetTasksInput where
  limit : Option Int := none
  project_id : Option Uuid := none
deriving DecidableEq, Repr

/-- Modelled from the spec: `get_tasks` (storage layer,
`resources/tasks/operations.rs`, not under src/).  Per spec section 6 the
filter supports a result-count limit and project scoping: retrieval returns
the stored tasks restricted to the scoped project when one is given, and
truncated to the limit when one is given. -/
def get_tasks (store : List Task) (filter : Option GetTasksInput) : List Task :=
  match filter with
  | none => store
  | some f =>
    let inScope := match f.project_id with
      | none => store
      | some p => store.filter (fun t => t.project_id = p)
    match f.limit with
    | none => inScope
    | some n => inScope.take n.toNat

/-- Embedding of `acquire_tasks_fingerprints` (suggestions.rs lines 96-123):
the filter is built with only the limit set — the `_project_id` argument is
never put into it — the retrieved tasks are rebuilt field by field (an
identity copy) and each rebuilt task is fingerprinted. -/
def acquire_tasks_fingerprints (store : List Task) (number_of_tasks : Nat)
    (_project_id : Option Uuid) : List String :=
  let filter : Option GetTasksInput :=
    some { limit := some (number_of_tasks : Int), project_id := none }
  let tasks := get_tasks store filter
  (tasks.map (fun r =>
    ({ id := r.id, created_at := r.created_at, updated_at := r.updated_at,
       title := r.title, description := r.description, status := r.status,
       priority := r.priority, due_date := r.due_date,
       project_id := r.project_id, lead_id := r.lead_id,
       owner_id := r.owner_id, count := r.count,
       parent_id := r.parent_id } : Task))).map calculate_task_fingerprint

/-- Parse the comma-separated `"key":"value"` pairs of a flat JSON object of
string values (the shape of the reconstructed tool-call arguments); `fuel`
bounds the recursion. -/
def parsePairs (fuel : Nat) (l : List Char) : Option (List (String × String) × List Char) :=
  match fuel with
  | 0 => none
  | fuel + 1 =>
    match decJStr l with
    | none => none
    | some (k, l) =>
      match l with
      | ':' :: l =>
        match decJStr l with
        | none => none
        | some (v, l) =>
          match l with
          | ',' :: l => (parsePairs fuel l).map (fun p => ((k, v) :: p.1, p.2))
          | _ => some ([(k, v)], l)
      | _ => none

/-- Parse a flat JSON object of string keys and string values; used to state
that reconstructed tool-call arguments are parseable JSON. -/
def json_object_pairs (s : String) : Option (List (String × String)) :=
  match s.data with
  | [] => none
  | c :: l =>
    if c = Char.ofNat 123 then
      match parsePairs l.length l with
      | some (ps, r) => if r = [Char.ofNat 125] then some ps else none
      | none => none
    else none

theorem assembleChunks_map_delta (mid : Option Uuid) (cs : List String) :
    ∀ acc, (assembleChunks mid acc cs).map ChatResponseChunk.delta = cs := by
  induction cs with
  | nil => intro acc; rfl
  | cons c cs ih => intro acc; simp [assembleChunks, ih]

theorem assembleChunks_message_id (mid : Option Uuid) (cs : List String) :
    ∀ acc x, x ∈ assembleChunks mid acc cs → x.message_id = mid := by
  induction cs with
  | nil => intro acc x hx; simp [assembleChunks] at hx
  | cons c cs ih =>
    intro acc x hx
    simp only [assembleChunks, List.mem_cons] at hx
    cases hx with
    | inl h => subst h; rfl
    | inr h => exact ih (acc ++ c) x h

theorem assembleChunks_get_zero (mid : Option Uuid) (cs : List String) (acc : String)
    (h : 0 < (assembleChunks mid acc cs).length) :
    ((assembleChunks mid acc cs).get ⟨0, h⟩).message =
      acc ++ ((assembleChunks mid acc cs).get ⟨0, h⟩).delta := by
  cases cs with
  | nil => simp [assembleChunks] at h
  | cons c cs => rfl

theorem assembleChunks_get_succ (mid : Option Uuid) (cs : List String) :
    ∀ (acc : String) (k : Nat) (h : k + 1 < (assembleChunks mid acc cs).length),
    ((assembleChunks mid acc cs).get ⟨k + 1, h⟩).message =
      ((assembleChunks mid acc cs).get ⟨k, Nat.lt_of_succ_lt h⟩).message ++
        ((assembleChunks mid acc cs).get ⟨k + 1, h⟩).delta := by
  induction cs with
  | nil => intro acc k h; simp [assembleChunks] at h
  | cons c cs ih =>
    intro acc k h
    have h2 : k < (assembleChunks mid (acc ++ c) cs).length := by
      have := Nat.lt_of_succ_lt_succ (by simpa [assembleChunks] using h)
      exact this
    cases k with
    | zero => exact assembleChunks_get_zero mid cs (acc ++ c) h2
    | succ k => exact ih (acc ++ c) k h2

theorem drain_foldl {α : Type} (l : List α) :
    ∀ init : Option α, l.foldl (fun _ c => some c) init = l.getLast?.or init := by
  induction l with
  | nil => intro init; rfl
  | cons c cs ih =>
    intro init
    simp only [List.foldl_cons, ih (some c)]
    cases cs with
    | nil => rfl
    | cons d ds =>
      obtain ⟨x, hx⟩ := Option.isSome_iff_exists.mp
        (List.getLast?_isSome.mpr (List.cons_ne_nil d ds))
      simp [List.getLast?_cons_cons, hx, Option.or]

theorem findAcc_updateToolCalls (d : ToolCallDelta) (i : Nat) :
    ∀ m : List (Nat × ToolCallAcc),
    findAcc i (updateToolCalls m d) =
      if d.index = i then some (mergeToolCallDelta ((findAcc i m).getD {}) d)
      else findAcc i m := by
  intro m
  induction m with
  | nil =>
    by_cases hi : d.index = i
    · simp [updateToolCalls, findAcc, hi]
    · simp [updateToolCalls, findAcc, hi]
  | cons p rest ih =>
    obtain ⟨j, a⟩ := p
    by_cases hj : j = d.index
    · subst hj
      by_cases hi : d.index = i
      · simp [updateToolCalls, findAcc, hi]
      · simp [updateToolCalls, findAcc, hi]
    · by_cases hi : j = i
      · have hdi : ¬d.index = i := fun h => hj (hi.trans h.symm)
        have hid : ¬i = d.index := fun h => hdi h.symm
        simp [updateToolCalls, findAcc, hj, hi, hdi, hid]
      · simp [updateToolCalls, findAcc, hj, hi, ih]

theorem accumulate_foldl_eq (i : Nat) (ds : List ToolCallDelta) :
    ∀ m : List (Nat × ToolCallAcc),
    findAcc i (ds.foldl updateToolCalls m) = accAfter (findAcc i m) (fragmentsAt i ds) := by
  induction ds with
  | nil => intro m; rfl
  | cons d ds ih =>
    intro m
    simp only [List.foldl_cons, ih]
    by_cases hi : d.index = i
    · simp [fragmentsAt, List.filter_cons, hi, accAfter, findAcc_updateToolCalls, ih]
    · simp [fragmentsAt, List.filter_cons, hi, accAfter, findAcc_updateToolCalls, ih]

theorem accAfter_some (fs : List ToolCallDelta) :
    ∀ a : ToolCallAcc, accAfter (some a) fs = some (fs.foldl mergeToolCallDelta a) := by
  induction fs with
  | nil => intro a; rfl
  | cons f fs ih => intro a; exact ih (mergeToolCallDelta a f)

theorem foldl_merge_arguments (fs : List ToolCallDelta) :
    ∀ a : ToolCallAcc, (fs.foldl mergeToolCallDelta a).arguments =
      fs.foldl (fun o d => appendFrag o d.arguments) a.arguments := by
  induction fs with
  | nil => intro a; rfl
  | cons f fs ih => intro a; exact ih (mergeToolCallDelta a f)

theorem foldl_merge_name (fs : List ToolCallDelta) :
    ∀ a : ToolCallAcc, (fs.foldl mergeToolCallDelta a).name =
      fs.foldl (fun o d => appendFrag o d.name) a.name := by
  induction fs with
  | nil => intro a; rfl
  | cons f fs ih => intro a; exact ih (mergeToolCallDelta a f)

theorem accAfter_arguments_concat (fs : List ToolCallDelta) :
    ((accAfter none fs).getD {}).arguments =
      fs.foldl (fun o d => appendFrag o d.arguments) none := by
  cases fs with
  | nil => rfl
  | cons f fs =>
    show ((accAfter (some (mergeToolCallDelta {} f)) fs).getD {}).arguments = _
    rw [accAfter_some, Option.getD_some, foldl_merge_arguments]
    rfl

theorem accAfter_name_concat (fs : List ToolCallDelta) :
    ((accAfter none fs).getD {}).name =
      fs.foldl (fun o d => appendFrag o d.name) none := by
  cases fs with
  | nil => rfl
  | cons f fs =>
    show ((accAfter (some (mergeToolCallDelta {} f)) fs).getD {}).name = _
    rw [accAfter_some, Option.getD_some, foldl_merge_name]
    rfl

/-- C1: for every delta sequence, the assembler emits one chunk per content
delta — the chunk's `delta` is the new text, the first chunk's `message` is
its own `delta`, and every later chunk's `message` is the previous chunk's
`message` plus its own `delta` — terminating at the end-of-turn signal with
no empty trailing chunk (the emitted deltas are exactly `chat_response`'s
yields); and on the delta sequence "Sure", ", ", "I can help." followed by
the end signal, the emitted chunks are exactly the three expected ones. -/
theorem claim1_streaming_chunks (mid : Option Uuid) (ds : List DeltaEvent) :
    ((get_chat_response mid ds).map ChatResponseChunk.delta = chat_response ds) ∧
    (∀ h0 : 0 < (get_chat_response mid ds).length,
      ((get_chat_response mid ds).get ⟨0, h0⟩).message =
        ((get_chat_response mid ds).get ⟨0, h0⟩).delta) ∧
    (∀ (k : Nat) (h : k + 1 < (get_chat_response mid ds).length),
      ((get_chat_response mid ds).get ⟨k + 1, h⟩).message =
        ((get_chat_response mid ds).get ⟨k, Nat.lt_of_succ_lt h⟩).message ++
          ((get_chat_response mid ds).get ⟨k + 1, h⟩).delta) ∧
    (get_chat_response mid [some "Sure", some ", ", some "I can help.", none] =
      [⟨"Sure", "Sure", mid, none⟩, ⟨", ", "Sure, ", mid, none⟩,
       ⟨"I can help.", "Sure, I can help.", mid, none⟩]) := by
  refine ⟨assembleChunks_map_delta mid _ "", ?_, ?_, rfl⟩
  · intro h0
    have h1 := assembleChunks_get_zero mid (chat_response ds) "" h0
    simpa using h1
  · intro k h
    exact assembleChunks_get_succ mid (chat_response ds) "" k h

/-- C1 witness: the cumulative-message hypotheses discharged on the concrete
three-delta example. -/
theorem claim1_streaming_chunks_witness :
    ((get_chat_response none [some "Sure", some ", ", some "I can help.", none]).get
        ⟨0, by decide⟩).message =
      ((get_chat_response none [some "Sure", some ", ", some "I can help.", none]).get
        ⟨0, by decide⟩).delta ∧
    ((get_chat_response none [some "Sure", some ", ", some "I can help.", none]).get
        ⟨2, by decide⟩).message =
      ((get_chat_response none [some "Sure", some ", ", some "I can help.", none]).get
        ⟨1, by decide⟩).message ++
        ((get_chat_response none [some "Sure", some ", ", some "I can help.", none]).get
        ⟨2, by decide⟩).delta := by
  have h := claim1_streaming_chunks none [some "Sure", some ", ", some "I can help.", none]
  exact ⟨h.2.1 (by decide), h.2.2.1 1 (by decide)⟩

/-- C2: tool-call accumulation is keyed by tool-call index — the accumulator
reconstructed for index `i` is exactly the in-order fold of the fragments
carrying index `i`, with `name` and `arguments` fragments concatenated in
arrival order — and on the concrete fragment sequence for one index
(name "create_task", then the two argument fragments) the reconstruction at
stream end has name `create_task` and arguments parseable as the JSON object
with title "Buy milk". -/
theorem claim2_tool_calls (ds : List ToolCallDelta) (i : Nat) :
    (findAcc i (accumulate_tool_calls ds) = accAfter none (fragmentsAt i ds)) ∧
    (((accAfter none (fragmentsAt i ds)).getD {}).arguments =
      (fragmentsAt i ds).foldl (fun o d => appendFrag o d.arguments) none) ∧
    (((accAfter none (fragmentsAt i ds)).getD {}).name =
      (fragmentsAt i ds).foldl (fun o d => appendFrag o d.name) none) ∧
    ((findAcc 0 (accumulate_tool_calls
        [⟨0, none, none, some "create_task", none⟩,
         ⟨0, none, none, none, some "\x7b\"tit"⟩,
         ⟨0, none, none, none, some "le\":\"Buy milk\"\x7d"⟩])).map finalizeToolCall =
      some ⟨none, none, some ⟨some "create_task", some "\x7b\"title\":\"Buy milk\"\x7d"⟩⟩) ∧
    (json_object_pairs "\x7b\"title\":\"Buy milk\"\x7d" = some [("title", "Buy milk")]) := by
  refine ⟨accumulate_foldl_eq i ds [], accAfter_arguments_concat _, accAfter_name_concat _,
    by decide, by decide⟩

/-- C3: the one-shot drain of the chat mutation returns exactly the last
chunk of a non-empty chunk sequence, and fails with the explicit
`LLMStreamError` on an empty sequence instead of returning a default or
empty chunk. -/
theorem claim3_drain (chunks : List ChatResponseChunk) :
    (∀ c, chunks.getLast? = some c →
      AIProcessorGraphQLMutation.chat (.ok ()) (.ok chunks) = .ok c) ∧
    (chunks = [] →
      AIProcessorGraphQLMutation.chat (.ok ()) (.ok chunks) =
        .err SDKError.LLMStreamError.toMessage) := by
  constructor
  · intro c hc
    simp [AIProcessorGraphQLMutation.chat, drain_foldl, hc]
  · intro h
    subst h
    rfl

/-- C3 witness: the drain applied to a concrete two-chunk sequence and to the
empty sequence. -/
theorem claim3_drain_witness :
    AIProcessorGraphQLMutation.chat (.ok ())
        (.ok [⟨"a", "a", none, none⟩, ⟨"b", "ab", none, none⟩]) =
      .ok ⟨"b", "ab", none, none⟩ ∧
    AIProcessorGraphQLMutation.chat (.ok ()) (.ok ([] : List ChatResponseChunk)) =
      .err SDKError.LLMStreamError.toMessage :=
  ⟨(claim3_drain _).1 _ rfl, (claim3_drain _).2 rfl⟩

/-- C8: every chunk of one turn carries the turn's `message_id`, and the
length of the cumulative `message` is non-decreasing along the chunk
sequence. -/
theorem claim8_chunk_invariants (mid : Option Uuid) (ds : List DeltaEvent) :
    (∀ c ∈ get_chat_response mid ds, c.message_id = mid) ∧
    (∀ (k : Nat) (h : k + 1 < (get_chat_response mid ds).length),
      ((get_chat_response mid ds).get ⟨k, Nat.lt_of_succ_lt h⟩).message.length ≤
        ((get_chat_response mid ds).get ⟨k + 1, h⟩).message.length) := by
  constructor
  · intro c hc
    exact assembleChunks_message_id mid (chat_response ds) "" c hc
  · intro k h
    simp only [get_chat_response] at h ⊢
    rw [assembleChunks_get_succ mid (chat_response ds) "" k h]
    simp [String.length_append]

/-- C8 witness: the invariants discharged on a concrete two-delta turn. -/
theorem claim8_chunk_invariants_witness :
    ((get_chat_response (some "m1") [some "a", some "b", none]).get
        ⟨0, by decide⟩).message_id = some "m1" ∧
    ((get_chat_response (some "m1") [some "a", some "b", none]).get
        ⟨0, by decide⟩).message.length ≤
      ((get_chat_response (some "m1") [some "a", some "b", none]).get
        ⟨1, by decide⟩).message.length := by
  have h := claim8_chunk_invariants (some "m1") [some "a", some "b", none]
  exact ⟨h.1 _ (List.get_mem _ _ _), h.2 0 (by decide)⟩

/-- C10: the suggestion fingerprint is not injective — an unset description
and a description set to the literal placeholder text produce the same
fingerprint. -/
theorem claim10_fingerprint_collision :
    calculate_task_suggestion_fingerprint ⟨some "Buy milk", none, none, none, none⟩ =
      calculate_task_suggestion_fingerprint
        ⟨some "Buy milk", some "<suggest>", none, none, none⟩ ∧
    (⟨some "Buy milk", none, none, none, none⟩ : TaskSuggestionInput) ≠
      ⟨some "Buy milk", some "<suggest>", none, none, none⟩ := ⟨rfl, by decide⟩

/-- C6 counterexample: `title` is itself an optional field of
`TaskSuggestionInput` (suggestions.rs line 79 unwraps it), so the input with
every optional field unset has no literal title, and its fingerprint renders
the placeholder — not a title — in the title slot. -/
theorem claim6_counterexample :
    calculate_task_suggestion_fingerprint ⟨none, none, none, none, none⟩ =
      "Task Title: <suggest>\n        Task Description: <suggest>\n        Task Status: <suggest>\n        Task Priority: <suggest>\n        Task Due Date: <suggest>" ∧
    (⟨none, none, none, none, none⟩ : TaskSuggestionInput).title = none := ⟨rfl, rfl⟩

/-- C6 amended: with the title set and every other optional field unset the
fingerprint carries the placeholder token in each optional-field slot and the
literal title in the title slot; when the title too is unset, the title slot
also carries the placeholder. -/
theorem claim6_amended (t : String) :
    calculate_task_suggestion_fingerprint ⟨some t, none, none, none, none⟩ =
      "Task Title: " ++ t ++ "\n        Task Description: <suggest>\n        Task Status: <suggest>\n        Task Priority: <suggest>\n        Task Due Date: <suggest>" ∧
    calculate_task_suggestion_fingerprint ⟨none, none, none, none, none⟩ =
      "Task Title: <suggest>\n        Task Description: <suggest>\n        Task Status: <suggest>\n        Task Priority: <suggest>\n        Task Due Date: <suggest>" := by
  constructor
  · show "Task Title: " ++ t ++ "\n        Task Description: " ++ "<suggest>" ++
      "\n        Task Status: " ++ "<suggest>" ++ "\n        Task Priority: " ++ "<suggest>" ++
      "\n        Task Due Date: " ++ "<suggest>" = _
    simp only [String.append_assoc]
    congr 2
  · rfl

/-- C9 counterexample: a provider failure during the chat mutation is
`.unwrap()`ed (ai.rs line 83) and panics — an unstructured failure, not the
structured GraphQL error the claim promises. -/
theorem claim9_counterexample :
    AIProcessorGraphQLMutation.chat (.ok ()) (.error (.other "provider connection failed")) =
      GqlOutcome.panicked ∧
    (GqlOutcome.panicked : GqlOutcome ChatResponseChunk) ≠
      GqlOutcome.err "provider connection failed" := ⟨rfl, by decide⟩

/-- C9 amended: `suggest_next_task`, `subdivide_task` and `create_chat` never
panic — context-extraction and engine failures become structured errors —
and the chat mutation surfaces the empty stream as a structured error, but a
provider failure there panics through `.unwrap()` instead of producing a
structured error. -/
theorem claim9_amended :
    (∀ (ctx : Except String Unit) (res : Except SDKError TaskSuggestion),
      suggest_next_task ctx res ≠ .panicked) ∧
    (∀ (ctx : Except String Unit) (res : Except SDKError (List TaskSuggestion)),
      subdivide_task ctx res ≠ .panicked) ∧
    (∀ (ctx : Except String Uuid) (input : CreateChatInput)
      (engine : CreateChatInput → Except SDKError Chat),
      create_chat ctx input engine ≠ .panicked) ∧
    (∀ e : SDKError, suggest_next_task (.ok ()) (.error e) = .err e.toMessage) ∧
    (∀ (e : String) (res : Except SDKError TaskSuggestion),
      suggest_next_task (.error e) res = .err e) ∧
    (AIProcessorGraphQLMutation.chat (.ok ()) (.ok []) =
      .err SDKError.LLMStreamError.toMessage) ∧
    (∀ e : SDKError, AIProcessorGraphQLMutation.chat (.ok ()) (.error e) = .panicked) := by
  refine ⟨?_, ?_, ?_, fun e => rfl, fun e res => rfl, rfl, fun e => rfl⟩
  · intro ctx res
    cases ctx with
    | error e => simp [suggest_next_task]
    | ok u =>
      cases res with
      | error e => simp [suggest_next_task]
      | ok v => simp [suggest_next_task]
  · intro ctx res
    cases ctx with
    | error e => simp [subdivide_task]
    | ok u =>
      cases res with
      | error e => simp [subdivide_task]
      | ok v => simp [subdivide_task]
  · intro ctx input engine
    cases ctx with
    | error e => simp [create_chat]
    | ok m =>
      cases h : engine { input with owner_id := m } with
      | error e => simp [create_chat, h]
      | ok v => simp [create_chat, h]

/-- C4: a message whose content parses as an object with role `user` or
`assistant` adapts to the corresponding turn carrying the full payload
(role and content preserved); unparseable content, a missing or non-string
role, the unimplemented `tool`/`function` or unknown roles, and non-object
payloads all abort loudly with an error, never a silent drop or coercion. -/
theorem claim4_message_adapter (m : Message) :
    (∀ fields, m.content = some (.obj fields) →
      lookupField fields "role" = some (.str "user") →
      message_to_chat_completion m = .ok (.User (.obj fields))) ∧
    (∀ fields, m.content = some (.obj fields) →
      lookupField fields "role" = some (.str "assistant") →
      message_to_chat_completion m = .ok (.Assistant (.obj fields))) ∧
    (m.content = none → message_to_chat_completion m = .error .panicked) ∧
    (∀ fields r, m.content = some (.obj fields) →
      lookupField fields "role" = some (.str r) → r ≠ "user" → r ≠ "assistant" →
      message_to_chat_completion m = .error .todoUnimplemented) ∧
    (∀ fields, m.content = some (.obj fields) →
      lookupField fields "role" = none →
      message_to_chat_completion m = .error .panicked) ∧
    (∀ v, m.content = some v → (∀ fields, v ≠ .obj fields) →
      message_to_chat_completion m = .error .todoUnimplemented) := by
  refine ⟨?_, ?_, ?_, ?_, ?_, ?_⟩
  · intro fields hc hr
    simp [message_to_chat_completion, hc, hr]
  · intro fields hc hr
    simp [message_to_chat_completion, hc, hr]
  · intro hc
    simp [message_to_chat_completion, hc]
  · intro fields r hc hr hu ha
    simp [message_to_chat_completion, hc, hr, hu, ha]
  · intro fields hc hr
    simp [message_to_chat_completion, hc, hr]
  · intro v hc hv
    cases v with
    | obj fields => exact absurd rfl (hv fields)
    | null => simp [message_to_chat_completion, hc]
    | bool b => simp [message_to_chat_completion, hc]
    | num n => simp [message_to_chat_completion, hc]
    | str s => simp [message_to_chat_completion, hc]
    | arr xs => simp [message_to_chat_completion, hc]

/-- C4 witness: a user message adapts to the user turn, a tool message and
unparseable content abort loudly. -/
theorem claim4_message_adapter_witness :
    message_to_chat_completion
        ⟨"m1", "c1", some (.obj [("role", .str "user"), ("content", .str "hi")])⟩ =
      .ok (.User (.obj [("role", .str "user"), ("content", .str "hi")])) ∧
    message_to_chat_completion
        ⟨"m2", "c1", some (.obj [("role", .str "tool"), ("content", .str "x")])⟩ =
      .error .todoUnimplemented ∧
    message_to_chat_completion ⟨"m3", "c1", none⟩ = .error .panicked := by
  have h1 := claim4_message_adapter
    ⟨"m1", "c1", some (.obj [("role", .str "user"), ("content", .str "hi")])⟩
  have h2 := claim4_message_adapter
    ⟨"m2", "c1", some (.obj [("role", .str "tool"), ("content", .str "x")])⟩
  have h3 := claim4_message_adapter ⟨"m3", "c1", none⟩
  refine ⟨h1.1 _ rfl rfl, h2.2.2.2.1 _ "tool" rfl rfl (by decide) (by decide), h3.2.2.1 rfl⟩

/-- A sample task used by the deduplication-filter counterexample. -/
def sampleTask : Task :=
  { id := "t1", created_at := "2024-01-01T00:00:00Z", updated_at := "2024-01-01T00:00:00Z",
    title := "Buy milk", description := none, status := .ToDo, priority := .Medium,
    due_date := none, project_id := "a", lead_id := none, owner_id := "o",
    count := 0, parent_id := none }

/-- C7 counterexample: `acquire_tasks_fingerprints` ignores its project-scope
argument (the `_project_id` parameter never enters the filter, suggestions.rs
lines 96-100): with the only stored task outside the requested scope, its
fingerprint is returned anyway, while a properly scoped retrieval would be
empty. -/
theorem claim7_counterexample :
    acquire_tasks_fingerprints [sampleTask] 1 (some "b") =
      [calculate_task_fingerprint sampleTask] ∧
    sampleTask.project_id ≠ "b" ∧
    get_tasks [sampleTask] (some { limit := some 1, project_id := some "b" }) = [] := by
  refine ⟨rfl, by decide, by decide⟩

/-- C7 amended: the filter retrieves at most N tasks and returns exactly the
fingerprint of each retrieved task, but the provided project scope is ignored
— the result is the same for every scope and equals the fingerprints of the
first N stored tasks. -/
theorem claim7_amended (store : List Task) (n : Nat) (scope : Option Uuid) :
    acquire_tasks_fingerprints store n scope = acquire_tasks_fingerprints store n none ∧
    (acquire_tasks_fingerprints store n scope).length ≤ n ∧
    acquire_tasks_fingerprints store n scope =
      (store.take n).map calculate_task_fingerprint := by
  refine ⟨rfl, ?_, ?_⟩
  · simp [acquire_tasks_fingerprints, get_tasks, List.length_take]
  · simp [acquire_tasks_fingerprints, get_tasks, List.map_map]

theorem toNat_ofNat_small : ∀ m : Nat, m < 128 → (Char.ofNat m).toNat = m := by decide

theorem hexCharVal_hexDigitChar (n : Nat) (h : n < 16) :
    hexCharVal (hexDigitChar n) = some n := by
  interval_cases n <;> decide

theorem expectChars_append (p : List Char) : ∀ r, expectChars p (p ++ r) = some r := by
  induction p with
  | nil => intro r; rfl
  | cons c p ih => intro r; simp [expectChars, ih]

theorem decStrAux_quote (l : List Char) : decStrAux ('"' :: l) = some ([], l) := by
  rw [decStrAux.eq_def]
  simp +decide

theorem decStrAux_esc_quote (l : List Char) :
    decStrAux ('\\' :: '"' :: l) = consRes '"' (decStrAux l) := by
  rw [decStrAux.eq_def]
  simp +decide

theorem decStrAux_esc_back (l : List Char) :
    decStrAux ('\\' :: '\\' :: l) = consRes '\\' (decStrAux l) := by
  rw [decStrAux.eq_def]
  simp +decide

theorem decStrAux_esc_b (l : List Char) :
    decStrAux ('\\' :: 'b' :: l) = consRes (Char.ofNat 8) (decStrAux l) := by
  rw [decStrAux.eq_def]
  simp +decide

theorem decStrAux_esc_t (l : List Char) :
    decStrAux ('\\' :: 't' :: l) = consRes (Char.ofNat 9) (decStrAux l) := by
  rw [decStrAux.eq_def]
  simp +decide

theorem decStrAux_esc_n (l : List Char) :
    decStrAux ('\\' :: 'n' :: l) = consRes (Char.ofNat 10) (decStrAux l) := by
  rw [decStrAux.eq_def]
  simp +decide

theorem decStrAux_esc_f (l : List Char) :
    decStrAux ('\\' :: 'f' :: l) = consRes (Char.ofNat 12) (decStrAux l) := by
  rw [decStrAux.eq_def]
  simp +decide

theorem decStrAux_esc_r (l : List Char) :
    decStrAux ('\\' :: 'r' :: l) = consRes (Char.ofNat 13) (decStrAux l) := by
  rw [decStrAux.eq_def]
  simp +decide

theorem decStrAux_esc_u (l : List Char) (h1 h2 h3 h4 : Char) (a b c2 e : Nat)
    (ha : hexCharVal h1 = some a) (hb : hexCharVal h2 = some b)
    (hc : hexCharVal h3 = some c2) (he : hexCharVal h4 = some e) :
    decStrAux ('\\' :: 'u' :: h1 :: h2 :: h3 :: h4 :: l) =
      consRes (Char.ofNat (((a * 16 + b) * 16 + c2) * 16 + e)) (decStrAux l) := by
  rw [decStrAux.eq_def]
  simp +decide [ha, hb, hc, he]

theorem decStrAux_other (l : List Char) (c : Char) (hc : ¬c = '"') (hc2 : ¬c = '\\') :
    decStrAux (c :: l) = consRes c (decStrAux l) := by
  rw [decStrAux.eq_def]
  simp [hc, hc2]

theorem decStrAux_escBody (s : List Char) :
    ∀ r : List Char, decStrAux (escBody s ++ '"' :: r) = some (s, r) := by
  induction s with
  | nil =>
    intro r
    simp only [escBody, List.nil_append]
    exact decStrAux_quote r
  | cons c s ih =>
    intro r
    rw [escBody, List.append_assoc, escChar]
    by_cases h1 : c = '"'
    · subst h1
      rw [if_pos rfl]
      simp only [List.cons_append, List.nil_append]
      rw [decStrAux_esc_quote, ih r, consRes]
    · rw [if_neg h1]
      by_cases h2 : c = '\\'
      · subst h2
        rw [if_pos rfl]
        simp only [List.cons_append, List.nil_append]
        rw [decStrAux_esc_back, ih r, consRes]
      · rw [if_neg h2]
        by_cases h3 : c.toNat = 8
        · have hch : Char.ofNat 8 = c := by rw [← h3, Char.ofNat_toNat]
          rw [if_pos h3]
          simp only [List.cons_append, List.nil_append]
          rw [decStrAux_esc_b, ih r, consRes, hch]
        · rw [if_neg h3]
          by_cases h4 : c.toNat = 9
          · have hch : Char.ofNat 9 = c := by rw [← h4, Char.ofNat_toNat]
            rw [if_pos h4]
            simp only [List.cons_append, List.nil_append]
            rw [decStrAux_esc_t, ih r, consRes, hch]
          · rw [if_neg h4]
            by_cases h5 : c.toNat = 10
            · have hch : Char.ofNat 10 = c := by rw [← h5, Char.ofNat_toNat]
              rw [if_pos h5]
              simp only [List.cons_append, List.nil_append]
              rw [decStrAux_esc_n, ih r, consRes, hch]
            · rw [if_neg h5]
              by_cases h6 : c.toNat = 12
              · have hch : Char.ofNat 12 = c := by rw [← h6, Char.ofNat_toNat]
                rw [if_pos h6]
                simp only [List.cons_append, List.nil_append]
                rw [decStrAux_esc_f, ih r, consRes, hch]
              · rw [if_neg h6]
                by_cases h7 : c.toNat = 13
                · have hch : Char.ofNat 13 = c := by rw [← h7, Char.ofNat_toNat]
                  rw [if_pos h7]
                  simp only [List.cons_append, List.nil_append]
                  rw [decStrAux_esc_r, ih r, consRes, hch]
                · rw [if_neg h7]
                  by_cases h8 : c.toNat < 32
                  · rw [if_pos h8]
                    simp only [List.cons_append, List.nil_append]
                    rw [decStrAux_esc_u _ _ _ _ _ 0 0 (c.toNat / 16) (c.toNat % 16)
                      (by decide) (by decide)
                      (hexCharVal_hexDigitChar _ (by omega))
                      (hexCharVal_hexDigitChar _ (by omega))]
                    have hval : ((0 * 16 + 0) * 16 + c.toNat / 16) * 16 + c.toNat % 16 =
                        c.toNat := by omega
                    rw [hval, Char.ofNat_toNat, ih r, consRes]
                  · rw [if_neg h8]
                    simp only [List.cons_append, List.nil_append]
                    rw [decStrAux_other _ c h1 h2, ih r, consRes]



/-- Whether a character list does not start with a decimal digit (the shape
of the remainder after the `count` field). -/
def headNotDigit : List Char → Bool
  | [] => true
  | c :: _ => !(isDigitChar c)

theorem natDigitsF_spec (fuel : Nat) : ∀ n : Nat, n < fuel →
    (∀ c ∈ natDigitsF fuel n, isDigitChar c = true) ∧
    digitsVal (natDigitsF fuel n) = n ∧ natDigitsF fuel n ≠ [] := by
  induction fuel with
  | zero => intro n h; omega
  | succ f ih =>
    intro n h
    rw [natDigitsF]
    by_cases h10 : n < 10
    · rw [if_pos h10]
      refine ⟨?_, ?_, by simp⟩
      · intro c hc
        simp only [List.mem_singleton] at hc
        subst hc
        simp only [isDigitChar, toNat_ofNat_small (48 + n) (by omega),
          Bool.and_eq_true, decide_eq_true_eq]
        omega
      · simp only [digitsVal, List.foldl_cons, List.foldl_nil,
          toNat_ofNat_small (48 + n) (by omega)]
        omega
    · rw [if_neg h10]
      have hlt : n / 10 < n := Nat.div_lt_self (by omega) (by omega)
      obtain ⟨hd, hv, hne⟩ := ih (n / 10) (by omega)
      refine ⟨?_, ?_, by simp⟩
      · intro c hc
        rw [List.mem_append] at hc
        cases hc with
        | inl hx => exact hd c hx
        | inr hx =>
          simp only [List.mem_singleton] at hx
          subst hx
          simp only [isDigitChar, toNat_ofNat_small (48 + n % 10) (by omega),
            Bool.and_eq_true, decide_eq_true_eq]
          omega
      · rw [digitsVal, List.foldl_append]
        show List.foldl _ (digitsVal (natDigitsF f (n / 10))) _ = n
        rw [hv]
        simp only [List.foldl_cons, List.foldl_nil,
          toNat_ofNat_small (48 + n % 10) (by omega)]
        omega

theorem natDigits_spec (n : Nat) :
    (∀ c ∈ natDigits n, isDigitChar c = true) ∧
    digitsVal (natDigits n) = n ∧ natDigits n ≠ [] :=
  natDigitsF_spec (n + 1) n (by omega)

theorem takeDigits_append (ds : List Char) :
    ∀ r, (∀ c ∈ ds, isDigitChar c = true) → headNotDigit r = true →
    takeDigits (ds ++ r) = (ds, r) := by
  induction ds with
  | nil =>
    intro r hd hr
    cases r with
    | nil => rfl
    | cons c rest =>
      have hc : isDigitChar c = false := by
        simpa [headNotDigit] using hr
      simp [takeDigits, hc]
  | cons d ds ih =>
    intro r hd hr
    have hdd : isDigitChar d = true := hd d (by simp)
    simp [takeDigits, hdd, ih r (fun c hc => hd c (by simp [hc])) hr]

theorem decNat_natDigits (n : Nat) (r : List Char) (hr : headNotDigit r = true) :
    decNat (natDigits n ++ r) = some (n, r) := by
  obtain ⟨hd, hv, hne⟩ := natDigits_spec n
  rw [decNat, takeDigits_append (natDigits n) r hd hr]
  simp [hne, hv]

theorem isDigitChar_ne_minus {c : Char} (h : isDigitChar c = true) : ¬c = '-' := by
  intro he
  subst he
  revert h
  decide

theorem decInt_cons (c : Char) (rest : List Char) :
    decInt (c :: rest) =
      if c = '-' then (decNat rest).map (fun p => (-(p.1 : Int), p.2))
      else (decNat (c :: rest)).map (fun p => ((p.1 : Int), p.2)) := rfl

theorem decInt_intChars (i : Int) (r : List Char) (hr : headNotDigit r = true) :
    decInt (intChars i ++ r) = some (i, r) := by
  rw [intChars]
  by_cases hneg : i < 0
  · rw [if_pos hneg]
    simp only [List.cons_append]
    rw [decInt_cons, if_pos rfl, decNat_natDigits (-i).toNat r hr]
    have hi : -(((-i).toNat : Int)) = i := by omega
    simp only [Option.map]
    rw [hi]
  · rw [if_neg hneg]
    obtain ⟨hd, hv, hne⟩ := natDigits_spec i.toNat
    obtain ⟨c, cs, hcs⟩ := List.exists_cons_of_ne_nil hne
    have hc : isDigitChar c = true := hd c (by rw [hcs]; simp)
    rw [hcs]
    simp only [List.cons_append]
    rw [decInt_cons, if_neg (isDigitChar_ne_minus hc)]
    rw [← List.cons_append, ← hcs, decNat_natDigits i.toNat r hr]
    have hi : ((i.toNat : Int)) = i := by omega
    simp [hi]

theorem decJStr_cons (c : Char) (rest : List Char) :
    decJStr (c :: rest) =
      if c = '"' then (decStrAux rest).map (fun p => (⟨p.1⟩, p.2)) else none := rfl

theorem decJStr_jstr (s : String) (r : List Char) :
    decJStr (jstr s ++ r) = some (s, r) := by
  rw [jstr]
  simp only [List.cons_append, List.append_assoc, List.singleton_append, List.nil_append]
  rw [decJStr_cons, if_pos rfl, decStrAux_escBody s.data r]
  rfl

theorem expectChars_null_quote (l : List Char) :
    expectChars "null".data ('"' :: l) = none := by
  rw [expectChars.eq_def]
  simp +decide

theorem decOptStr_joptstr (o : Option String) (r : List Char) :
    decOptStr (joptstr o ++ r) = some (o, r) := by
  cases o with
  | none =>
    have h : joptstr none = "null".data := rfl
    rw [h, decOptStr, expectChars_append "null".data r]
  | some s =>
    have h : joptstr (some s) ++ r = '"' :: (escBody s.data ++ '"' :: r) := by
      rw [joptstr, jstr]
      simp [List.append_assoc]
    rw [decOptStr, h, expectChars_null_quote]
    have h2 : decJStr ('"' :: (escBody s.data ++ '"' :: r)) = some (s, r) := by
      have h3 : ('"' :: (escBody s.data ++ '"' :: r)) = jstr s ++ r := by
        rw [jstr]
        simp [List.append_assoc]
      rw [h3, decJStr_jstr]
    rw [h2]
    rfl

theorem decStatus_name (st : TaskStatus) (r : List Char) :
    decStatus (jstr (statusName st) ++ r) = some (st, r) := by
  rw [decStatus, decJStr_jstr]
  cases st <;> rfl

theorem decPriority_name (p : TaskPriority) (r : List Char) :
    decPriority (jstr (priorityName p) ++ r) = some (p, r) := by
  rw [decPriority, decJStr_jstr]
  cases p <;> rfl



theorem expectChars_self (p : List Char) : expectChars p p = some [] := by
  have h := expectChars_append p []
  simpa using h

theorem decodeTaskA_append (a b c d : String) (r : List Char) :
    decodeTaskA ("\x7b\"id\":".data ++ (jstr a ++ (",\"created_at\":".data ++ (jstr b ++
      (",\"updated_at\":".data ++ (jstr c ++ (",\"title\":".data ++ (jstr d ++ r)))))))) =
      some ((a, b, c, d), r) := by
  rw [decodeTaskA]
  rw [expectChars_append]
  simp only [Option.some_bind]
  rw [decJStr_jstr]
  simp only [Option.some_bind]
  rw [expectChars_append]
  simp only [Option.some_bind]
  rw [decJStr_jstr]
  simp only [Option.some_bind]
  rw [expectChars_append]
  simp only [Option.some_bind]
  rw [decJStr_jstr]
  simp only [Option.some_bind]
  rw [expectChars_append]
  simp only [Option.some_bind]
  rw [decJStr_jstr]
  simp only [Option.some_bind]

theorem decodeTaskB_append (d : Option String) (st : TaskStatus) (p : TaskPriority)
    (dd : Option String) (r : List Char) :
    decodeTaskB (",\"description\":".data ++ (joptstr d ++ (",\"status\":".data ++
      (jstr (statusName st) ++ (",\"priority\":".data ++ (jstr (priorityName p) ++
      (",\"due_date\":".data ++ (joptstr dd ++ r)))))))) = some ((d, st, p, dd), r) := by
  rw [decodeTaskB]
  rw [expectChars_append]
  simp only [Option.some_bind]
  rw [decOptStr_joptstr]
  simp only [Option.some_bind]
  rw [expectChars_append]
  simp only [Option.some_bind]
  rw [decStatus_name]
  simp only [Option.some_bind]
  rw [expectChars_append]
  simp only [Option.some_bind]
  rw [decPriority_name]
  simp only [Option.some_bind]
  rw [expectChars_append]
  simp only [Option.some_bind]
  rw [decOptStr_joptstr]
  simp only [Option.some_bind]

theorem decodeTaskC_append_end (pid : String) (lid : Option String) (oid : String)
    (cnt : Int) (par : Option String) :
    decodeTaskC (",\"project_id\":".data ++ (jstr pid ++ (",\"lead_id\":".data ++
      (joptstr lid ++ (",\"owner_id\":".data ++ (jstr oid ++ (",\"count\":".data ++
      (intChars cnt ++ (",\"parent_id\":".data ++ (joptstr par ++ "\x7d".data)))))))))) =
      some ((pid, lid, oid, cnt, par), []) := by
  have hr : headNotDigit (",\"parent_id\":".data ++ (joptstr par ++ "\x7d".data)) = true := rfl
  rw [decodeTaskC]
  rw [expectChars_append]
  simp only [Option.some_bind]
  rw [decJStr_jstr]
  simp only [Option.some_bind]
  rw [expectChars_append]
  simp only [Option.some_bind]
  rw [decOptStr_joptstr]
  simp only [Option.some_bind]
  rw [expectChars_append]
  simp only [Option.some_bind]
  rw [decJStr_jstr]
  simp only [Option.some_bind]
  rw [expectChars_append]
  simp only [Option.some_bind]
  rw [decInt_intChars cnt (",\"parent_id\":".data ++ (joptstr par ++ "\x7d".data)) hr]
  simp only [Option.some_bind]
  rw [expectChars_append]
  simp only [Option.some_bind]
  rw [decOptStr_joptstr]
  simp only [Option.some_bind]
  rw [expectChars_self]
  simp only [Option.some_bind]

theorem decodeTask_taskChars (t : Task) : decodeTask (taskChars t) = some t := by
  rw [decodeTask]
  have hshape : taskChars t =
      "\x7b\"id\":".data ++ (jstr t.id ++ (",\"created_at\":".data ++ (jstr t.created_at ++
      (",\"updated_at\":".data ++ (jstr t.updated_at ++ (",\"title\":".data ++ (jstr t.title ++
      (",\"description\":".data ++ (joptstr t.description ++ (",\"status\":".data ++
      (jstr (statusName t.status) ++ (",\"priority\":".data ++ (jstr (priorityName t.priority) ++
      (",\"due_date\":".data ++ (joptstr t.due_date ++ (",\"project_id\":".data ++
      (jstr t.project_id ++ (",\"lead_id\":".data ++ (joptstr t.lead_id ++
      (",\"owner_id\":".data ++ (jstr t.owner_id ++ (",\"count\":".data ++
      (intChars t.count ++ (",\"parent_id\":".data ++ (joptstr t.parent_id ++
      "\x7d".data))))))))))))))))))))))))) := by
    rw [taskChars]
    simp only [List.append_assoc]
  rw [hshape, decodeTaskA_append]
  simp only [Option.some_bind]
  rw [decodeTaskB_append]
  simp only [Option.some_bind]
  rw [decodeTaskC_append_end]
  simp only [Option.some_bind]
  rfl
theorem calculate_task_fingerprint_inj (t1 t2 : Task)
    (h : calculate_task_fingerprint t1 = calculate_task_fingerprint t2) : t1 = t2 := by
  have hchars : taskChars t1 = taskChars t2 := congrArg String.data h
  have hdec := decodeTask_taskChars t1
  rw [hchars, decodeTask_taskChars t2] at hdec
  exact (Option.some_inj.mp hdec).symm

/-- C5: the task fingerprint is deterministic — tasks with identical field
values produce identical strings — and injective: tasks differing in at least
one field produce different strings (via the total decoder
`decodeTask_taskChars`, which inverts the serialization). -/
theorem claim5_fingerprint (t1 t2 : Task) :
    (t1 = t2 → calculate_task_fingerprint t1 = calculate_task_fingerprint t2) ∧
    (t1 ≠ t2 → calculate_task_fingerprint t1 ≠ calculate_task_fingerprint t2) := by
  constructor
  · intro h
    rw [h]
  · intro hne h
    exact hne (calculate_task_fingerprint_inj t1 t2 h)

/-- C5 witness: determinism and injectivity discharged on concrete tasks
differing only in the title. -/
theorem claim5_fingerprint_witness :
    (calculate_task_fingerprint sampleTask = calculate_task_fingerprint sampleTask) ∧
    (calculate_task_fingerprint sampleTask ≠
      calculate_task_fingerprint { sampleTask with title := "Walk dog" }) :=
  ⟨(claim5_fingerprint sampleTask sampleTask).1 rfl,
   (claim5_fingerprint sampleTask { sampleTask with title := "Walk dog" }).2 (by decide)⟩

end Plexo

